import Mathlib

/-
Verification of the mlrun repository slice: the `marketplace_sources`
schema migration, the frontend-spec pydantic schemas, and the model
monitoring TSDB connector interface.
-/

namespace MLRun

/-
Part 1: the Alembic migration
src/mlrun/api/migrations/versions/deac06871ace_adding_marketplace_sources_table.py
The migration is declarative DDL; we embed the schema objects it builds
and the schema transformation performed by `upgrade` and `downgrade`.
-/

/-- A column declaration, as produced by `sa.Column(name, type, nullable=...)`. -/
structure Column where
  name : String
  sqlType : String
  nullable : Bool
deriving DecidableEq, Repr

/-- A table declaration, as produced by `op.create_table`: the column list in
declaration order, the primary-key column list, and the named unique
constraints (constraint name, constrained columns). -/
structure TableDef where
  name : String
  columns : List Column
  primaryKey : List String
  uniqueConstraints : List (String × List String)
deriving DecidableEq, Repr

/-- The table literal built by `upgrade` in
deac06871ace_adding_marketplace_sources_table.py, field for field. -/
def marketplaceSourcesTable : TableDef :=
  { name := "marketplace_sources"
    columns :=
      [ { name := "id", sqlType := "Integer", nullable := false }
      , { name := "name", sqlType := "String", nullable := true }
      , { name := "index", sqlType := "Integer", nullable := true }
      , { name := "created", sqlType := "TIMESTAMP", nullable := true }
      , { name := "updated", sqlType := "TIMESTAMP", nullable := true }
      , { name := "object", sqlType := "JSON", nullable := true } ]
    primaryKey := ["id"]
    uniqueConstraints := [("_marketplace_sources_uc", ["name"])] }

/-- A database schema: the list of declared tables. -/
abbrev Schema : Type := List TableDef

/-- The migration `upgrade`: `op.create_table("marketplace_sources", ...)`
adds the one table to the schema. -/
def upgrade (s : Schema) : Schema :=
  s ++ [marketplaceSourcesTable]

/-- The migration `downgrade`: `op.drop_table("marketplace_sources")`
removes every table of that name from the schema. -/
def downgrade (s : Schema) : Schema :=
  List.filter (fun t => t.name != "marketplace_sources") s

/-
Row-level semantics of the created table. The enforcement engine (the SQL
database that executes the DDL) is outside the repository; we embed the
standard SQL semantics of the declared constraints: the primary key makes
`id` non-null and unique, and a UNIQUE constraint on a nullable column
rejects a duplicated non-NULL value while NULLs never conflict with
anything (SQL UNIQUE ignores NULL markers; this is the behavior of the
engines the migration targets).
-/

/-- A row of `marketplace_sources`. `id` is the non-nullable primary key;
every other column is nullable, which the `Option` types record. -/
structure SourceRow where
  id : Nat
  name : Option String
  index : Option Int
  created : Option Nat
  updated : Option Nat
  object : Option String
deriving DecidableEq, Repr

/-- Constraint-violation outcomes of an insert. -/
inductive InsertError where
  | primaryKeyViolation
  | uniqueViolation
deriving DecidableEq, Repr

/-- Insert one row under the declared constraints: the primary key rejects a
duplicated `id`; the UNIQUE constraint `_marketplace_sources_uc` rejects a
non-NULL `name` already present, and lets NULL names through. -/
def insertRow (rows : List SourceRow) (r : SourceRow) :
    Except InsertError (List SourceRow) :=
  if rows.any (fun r0 => r0.id == r.id) then
    Except.error InsertError.primaryKeyViolation
  else if (match r.name with
           | some n => rows.any (fun r0 => r0.name == some n)
           | none => false) then
    Except.error InsertError.uniqueViolation
  else
    Except.ok (rows ++ [r])

/-
Part 2: the TSDB connector
src/mlrun/model_monitoring/db/tsdb/base.py
The file declares an abstract interface: return types, default arguments
and docstring contracts are in the source, while every backend
implementation is outside the given slice. Definitions below that carry a
`Modelled from the spec` comment fill in such a missing implementation,
faithful to the docstring and the specification text; the types and the
default arguments follow the declarations in base.py.
-/

/-- A monitoring metric or result descriptor
(`mm_schemas.ModelEndpointMonitoringMetric`, external to the slice):
the producing application and the metric name. -/
structure ModelEndpointMonitoringMetric where
  app : String
  name : String
deriving DecidableEq, Repr

/-- One stored TSDB record: the model endpoint it belongs to, the metric
name, the event timestamp (epoch seconds), the numeric value, and the
status code used by result records. -/
structure TSDBRecord where
  endpointId : String
  metricName : String
  timestamp : Nat
  value : Int
  status : Int
deriving DecidableEq, Repr

/-- The persisted state a connector queries: the list of stored records. -/
abbrev TSDBStore : Type := List TSDBRecord

/-- The records of one endpoint and metric inside the closed time range
`[tStart, tEnd]`. -/
def matchingRecords (store : TSDBStore) (endpointId : String)
    (tStart tEnd : Nat) (metricName : String) : List TSDBRecord :=
  store.filter fun r =>
    r.endpointId == endpointId && r.metricName == metricName &&
      decide (tStart ≤ r.timestamp) && decide (r.timestamp ≤ tEnd)

/-- The `type` argument of `read_metrics_data`:
`typing.Literal["metrics", "results"]`. -/
inductive MetricDataKind where
  | metrics
  | results
deriving DecidableEq, Repr

/-- One entry of the list returned by `read_metrics_data`, following the
return annotation in base.py: `ModelEndpointMonitoringMetricValues`
(metric shape), `ModelEndpointMonitoringResultValues` (result shape, the
points also carry a status), or the tagged
`ModelEndpointMonitoringMetricNoData` marker. -/
inductive MetricValueEntry where
  | metricValues (metric : ModelEndpointMonitoringMetric)
      (values : List (Nat × Int))
  | resultValues (metric : ModelEndpointMonitoringMetric)
      (values : List (Nat × Int × Int))
  | noData (metric : ModelEndpointMonitoringMetric)
deriving DecidableEq, Repr

/-- The descriptor an entry of `read_metrics_data` is about. -/
def entryMetric : MetricValueEntry → ModelEndpointMonitoringMetric
  | MetricValueEntry.metricValues m _ => m
  | MetricValueEntry.resultValues m _ => m
  | MetricValueEntry.noData m => m

/-- Whether an entry has the value shape selected by the `type` argument
(a no-data marker is allowed for either type). -/
def entryMatchesKind (kind : MetricDataKind) : MetricValueEntry → Bool
  | MetricValueEntry.metricValues _ _ => kind == MetricDataKind.metrics
  | MetricValueEntry.resultValues _ _ => kind == MetricDataKind.results
  | MetricValueEntry.noData _ => true

/-- Resolution of one requested descriptor: its full value series in the
shape selected by `type`, or the explicit no-data marker when the
endpoint has no matching record in range. -/
def resolveMetric (store : TSDBStore) (endpointId : String)
    (tStart tEnd : Nat) (kind : MetricDataKind)
    (m : ModelEndpointMonitoringMetric) : MetricValueEntry :=
  match matchingRecords store endpointId tStart tEnd m.name with
  | [] => MetricValueEntry.noData m
  | recs =>
      match kind with
      | MetricDataKind.metrics =>
          MetricValueEntry.metricValues m
            (recs.map fun r => (r.timestamp, r.value))
      | MetricDataKind.results =>
          MetricValueEntry.resultValues m
            (recs.map fun r => (r.timestamp, r.value, r.status))

/-- Modelled from the spec: the backend implementation of
`read_metrics_data` is not in the slice (base.py only declares it).
Per the spec, for a fixed endpoint and explicit time range it resolves
each requested descriptor, in input order, to either its full value
series or an explicit no-data marker; `type` selects the value shape. -/
def readMetricsData (store : TSDBStore) (endpointId : String)
    (tStart tEnd : Nat) (metrics : List ModelEndpointMonitoringMetric)
    (kind : MetricDataKind) : List MetricValueEntry :=
  metrics.map (resolveMetric store endpointId tStart tEnd kind)

/-- The name of the predictions metric read by `read_predictions`. -/
def invocationsMetricName : String := "invocations"

/-- The return type of `read_predictions` per base.py: metric values or
the tagged no-data marker. -/
inductive PredictionsReadResult where
  | metricValues (values : List (Nat × Int))
  | noData
deriving DecidableEq, Repr

/-- Invocation counts aggregated into fixed windows of length `w`:
each bucket start paired with the sum of the values falling in it. -/
def windowCounts (w : Nat) (pts : List (Nat × Int)) : List (Nat × Int) :=
  ((pts.map fun p => p.1 / w).eraseDups).map fun b =>
    (b * w, ((pts.filter fun p => p.1 / w == b).map Prod.snd).sum)

/-- Modelled from the spec: the backend implementation of
`read_predictions` is not in the slice. Per the spec it returns the
invocations (call-count) time series of the endpoint in range, optionally
pre-aggregated into fixed windows (the window is taken here as a length
in seconds), and the tagged no-data marker when the endpoint has no
recorded invocations in range. -/
def readPredictions (store : TSDBStore) (endpointId : String)
    (tStart tEnd : Nat) (aggregationWindow : Option Nat) :
    PredictionsReadResult :=
  let recs := matchingRecords store endpointId tStart tEnd
    invocationsMetricName
  if recs.isEmpty then PredictionsReadResult.noData
  else
    let pts := recs.map fun r => (r.timestamp, r.value)
    match aggregationWindow with
    | none => PredictionsReadResult.metricValues pts
    | some w => PredictionsReadResult.metricValues (windowCounts w pts)

/-- Modelled from the spec: the backend implementation of
`read_prediction_metric_for_endpoint_if_exists` is not in the slice.
Its declaration in base.py returns
`typing.Optional[ModelEndpointMonitoringMetric]`: the invocations metric
descriptor when the endpoint has ever recorded an invocation, and `None`
otherwise; Python's `None` is embedded as `Option.none`. -/
def readPredictionMetricForEndpointIfExists (store : TSDBStore)
    (endpointId : String) : Option ModelEndpointMonitoringMetric :=
  if store.any (fun r =>
      r.endpointId == endpointId && r.metricName == invocationsMetricName)
  then some { app := "mlrun-infra", name := invocationsMetricName }
  else none

/-- A logical TSDB table for `get_records`: its name, column names, and
rows (a timestamp and one value per column). -/
structure TSDBTable where
  name : String
  columnNames : List String
  rows : List (Nat × List String)
deriving DecidableEq, Repr

/-- The error raised by `get_records` per its docstring:
`MLRunNotFoundError` when the provided table was not found. -/
inductive MLRunQueryError where
  | notFoundError
deriving DecidableEq, Repr

/-- The tabular result of `get_records` (a pandas DataFrame in the
source): named columns and rows. -/
structure DataFrame where
  columns : List String
  rows : List (Nat × List String)
deriving DecidableEq, Repr

/-- Project a table row to the requested column subset. -/
def projectRow (allColumns requested : List String) (row : List String) :
    List String :=
  requested.filterMap fun c =>
    (allColumns.indexOf? c).bind fun i => row.get? i

/-- Modelled from the spec: the backend implementation of `get_records`
is not in the slice. Per the docstring it returns the records of one
logical table restricted to the time range, an optional column subset and
an optional filter; it raises `MLRunNotFoundError` when the provided
table was not found. The backend-specific filter-expression grammar is
unspecified, so the filter is embedded as an abstract row predicate. -/
def getRecords (tables : List TSDBTable) (table : String)
    (tStart tEnd : Nat) (columns : Option (List String))
    (filterQuery : Nat × List String → Bool) :
    Except MLRunQueryError DataFrame :=
  match tables.find? (fun t => t.name == table) with
  | none => Except.error MLRunQueryError.notFoundError
  | some t =>
      let inRange := t.rows.filter fun row =>
        decide (tStart ≤ row.1) && decide (row.1 ≤ tEnd) && filterQuery row
      match columns with
      | none => Except.ok { columns := t.columnNames, rows := inRange }
      | some cols =>
          Except.ok
            { columns := cols
              rows := inRange.map fun row =>
                (row.1, projectRow t.columnNames cols row.2) }

/-- The writer-event kinds (`mm_schemas.WriterEventKind`, external to the
slice). Modelled from the spec: the default kind is the RESULT kind whose
persisted value is the string result. -/
inductive WriterEventKind where
  | result
  | metric
deriving DecidableEq, Repr

/-- The string value a writer-event kind is persisted with. -/
def WriterEventKind.value : WriterEventKind → String
  | WriterEventKind.result => "result"
  | WriterEventKind.metric => "metric"

/-- The state written by `write_application_event`: the persisted events
(an event dictionary together with its kind), in write order. -/
structure ApplicationEventStore where
  events : List (List (String × String) × WriterEventKind)
deriving DecidableEq, Repr

/-- Modelled from the spec: the backend implementation of
`write_application_event` is not in the slice. It persists the one event
with the provided kind. -/
def writeApplicationEvent (store : ApplicationEventStore)
    (event : List (String × String)) (kind : WriterEventKind) :
    ApplicationEventStore :=
  { events := store.events ++ [(event, kind)] }

/-- A call of `write_application_event` without an explicit `kind`
argument: base.py declares the default
`kind = mm_schemas.WriterEventKind.RESULT`. -/
def writeApplicationEventDefaultKind (store : ApplicationEventStore)
    (event : List (String × String)) : ApplicationEventStore :=
  writeApplicationEvent store event WriterEventKind.result

/-
Part 3: the time expressions of get_model_endpoint_real_time_metrics
The docstring of `get_model_endpoint_real_time_metrics` (base.py, lines
89-96) describes the accepted `start`/`end` values; the code that parses
them lives in the external backend, so the parser is modelled from the
spec. Absolute timestamps are embedded as Unix-timestamp digit strings.
-/

/-- The unit of a relative time expression. Modelled from the spec: the
unit ranges over minutes, hours, days and seconds. -/
inductive TimeUnit where
  | m
  | h
  | d
  | s
deriving DecidableEq, Repr

/-- The character naming a unit inside a relative expression. -/
def TimeUnit.char : TimeUnit → Char
  | TimeUnit.m => 'm'
  | TimeUnit.h => 'h'
  | TimeUnit.d => 'd'
  | TimeUnit.s => 's'

/-- The unit a character names, if any. -/
def unitOfChar (c : Char) : Option TimeUnit :=
  if c = 'm' then some TimeUnit.m
  else if c = 'h' then some TimeUnit.h
  else if c = 'd' then some TimeUnit.d
  else if c = 's' then some TimeUnit.s
  else none

/-- A parsed time bound: the sentinel 0 (earliest available time), the
relative expressions now and now-N unit, or an absolute timestamp
(its digit string). -/
inductive TimeExpr where
  | earliest
  | now
  | nowMinus (digits : List Char) (unit : TimeUnit)
  | absolute (digits : List Char)
deriving DecidableEq, Repr

/-- Parse the tail of a now-N unit expression (the part after the
now- prefix): one or more digits followed by exactly one unit letter. -/
def parseNowMinus (rest : List Char) : Option TimeExpr :=
  match rest.dropWhile Char.isDigit with
  | [c] =>
      match unitOfChar c with
      | some u =>
          if rest.takeWhile Char.isDigit = [] then none
          else some (TimeExpr.nowMinus (rest.takeWhile Char.isDigit) u)
      | none => none
  | _ => none

/-- Modelled from the spec: the time-bound parser of the backend behind
`get_model_endpoint_real_time_metrics` is not in the slice. It accepts
the sentinel 0, the relative expressions now and now-N unit with unit in
minutes, hours, days, seconds, and an absolute (digit string) timestamp,
and nothing else. -/
def parseTimeExprChars (cs : List Char) : Option TimeExpr :=
  if cs = ['0'] then some TimeExpr.earliest
  else if cs = ['n', 'o', 'w'] then some TimeExpr.now
  else if cs.take 4 = ['n', 'o', 'w', '-'] then parseNowMinus (cs.drop 4)
  else if cs = [] then none
  else if cs.all Char.isDigit then some (TimeExpr.absolute cs)
  else none

/-- The string-level time-bound parser. -/
def parseTimeExpr (str : String) : Option TimeExpr :=
  parseTimeExprChars str.data

/-- The declarative language of accepted time bounds: the sentinel 0,
now, now-N unit for a nonempty digit string N and one of the four units,
and a nonempty digit string (an absolute timestamp). -/
inductive IsTimeExpr : List Char → Prop where
  | earliest : IsTimeExpr ['0']
  | now : IsTimeExpr ['n', 'o', 'w']
  | nowMinus (ds : List Char) (u : TimeUnit) (hne : ds ≠ [])
      (hd : ds.all Char.isDigit = true) :
      IsTimeExpr (['n', 'o', 'w', '-'] ++ (ds ++ [u.char]))
  | absolute (cs : List Char) (hne : cs ≠ [])
      (hd : cs.all Char.isDigit = true) : IsTimeExpr cs

/-
Part 4: the frontend-spec schemas
src/mlrun/api/schemas/frontend_spec.py
`ProjectMembershipFeatureFlag` and `AuthenticationFeatureFlag` are closed
string enumerations and `FeatureFlags` a pydantic model over them;
validation of a field against a string enumeration accepts exactly the
member values.
-/

/-- The `ProjectMembershipFeatureFlag` string enumeration. -/
inductive ProjectMembershipFeatureFlag where
  | enabled
  | disabled
deriving DecidableEq, Repr

/-- The string value of a `ProjectMembershipFeatureFlag` member. -/
def ProjectMembershipFeatureFlag.value :
    ProjectMembershipFeatureFlag → String
  | ProjectMembershipFeatureFlag.enabled => "enabled"
  | ProjectMembershipFeatureFlag.disabled => "disabled"

/-- The `AuthenticationFeatureFlag` string enumeration. -/
inductive AuthenticationFeatureFlag where
  | none
  | basic
  | bearer
  | iguazio
deriving DecidableEq, Repr

/-- The string value of an `AuthenticationFeatureFlag` member. -/
def AuthenticationFeatureFlag.value : AuthenticationFeatureFlag → String
  | AuthenticationFeatureFlag.none => "none"
  | AuthenticationFeatureFlag.basic => "basic"
  | AuthenticationFeatureFlag.bearer => "bearer"
  | AuthenticationFeatureFlag.iguazio => "iguazio"

/-- Coercion of a string to a `ProjectMembershipFeatureFlag` member, as
pydantic validates an enum-typed field: exactly the member values are
accepted. -/
def parseProjectMembership (str : String) :
    Option ProjectMembershipFeatureFlag :=
  if str == "enabled" then some ProjectMembershipFeatureFlag.enabled
  else if str == "disabled" then some ProjectMembershipFeatureFlag.disabled
  else none

/-- Coercion of a string to an `AuthenticationFeatureFlag` member, as
pydantic validates an enum-typed field. -/
def parseAuthentication (str : String) :
    Option AuthenticationFeatureFlag :=
  if str == "none" then some AuthenticationFeatureFlag.none
  else if str == "basic" then some AuthenticationFeatureFlag.basic
  else if str == "bearer" then some AuthenticationFeatureFlag.bearer
  else if str == "iguazio" then some AuthenticationFeatureFlag.iguazio
  else none

/-- The validated `FeatureFlags` model: both fields are mandatory
enum-typed fields. -/
structure FeatureFlags where
  projectMembership : ProjectMembershipFeatureFlag
  authentication : AuthenticationFeatureFlag
deriving DecidableEq, Repr

/-- Validation of a `FeatureFlags` payload from raw string field values:
it succeeds exactly when both fields coerce to enumeration members, and
rejects every other payload with a validation error (embedded as
`none`). -/
def validateFeatureFlags (pm auth : String) : Option FeatureFlags :=
  match parseProjectMembership pm, parseAuthentication auth with
  | some p, some a => some { projectMembership := p, authentication := a }
  | _, _ => none

/-
Part 5: concrete inputs used by the witness and counterexample theorems.
-/

/-- A sample pre-existing table, used to witness the migration round
trip on a non-empty schema. -/
def projectsTableExample : TableDef :=
  { name := "projects", columns := [], primaryKey := [],
    uniqueConstraints := [] }

/-- A row of `marketplace_sources` with a NULL name. -/
def nullNameRowA : SourceRow :=
  { id := 1, name := none, index := none, created := none,
    updated := none, object := none }

/-- A second, distinct row with a NULL name. -/
def nullNameRowB : SourceRow :=
  { id := 2, name := none, index := none, created := none,
    updated := none, object := none }

/-- A row named a. -/
def namedRowA : SourceRow :=
  { id := 1, name := some "a", index := none, created := none,
    updated := none, object := none }

/-- A second row also named a (its insertion must fail). -/
def namedRowA2 : SourceRow :=
  { id := 2, name := some "a", index := none, created := none,
    updated := none, object := none }

/-- A row named b. -/
def namedRowB : SourceRow :=
  { id := 3, name := some "b", index := none, created := none,
    updated := none, object := none }

/-- A sample metric descriptor. -/
def exampleMetric : ModelEndpointMonitoringMetric :=
  { app := "my-app", name := "latency" }

/-- A sample store whose only record belongs to a different endpoint, so
the queried endpoint has no matching record in any range. -/
def exampleStore : TSDBStore :=
  [ { endpointId := "other-endpoint", metricName := "invocations",
      timestamp := 5, value := 1, status := 0 } ]

/-
Part 6: the storage-layer uniqueness invariant on non-NULL names.
-/

/-- Pairwise distinctness of the non-NULL names of a row list: any two
rows either differ in name or the earlier one has a NULL name. -/
def nonNullNamesDistinct : List SourceRow → Prop :=
  List.Pairwise fun a b => a.name = none ∨ a.name ≠ b.name

/-
Part 7: the claim theorems (with their helper lemmas first).
-/

/-- C7: the migration upgrade creates exactly the table
marketplace_sources, with columns id (integer, the primary key), name (a
unique string), index (integer), created and updated (timestamps) and
object (a JSON payload), the primary-key and unique constraints, and
nothing else. -/
theorem upgrade_creates_marketplace_sources_exactly (s : Schema) :
    upgrade s = s ++
      [{ name := "marketplace_sources"
         columns :=
           [ { name := "id", sqlType := "Integer", nullable := false }
           , { name := "name", sqlType := "String", nullable := true }
           , { name := "index", sqlType := "Integer", nullable := true }
           , { name := "created", sqlType := "TIMESTAMP", nullable := true }
           , { name := "updated", sqlType := "TIMESTAMP", nullable := true }
           , { name := "object", sqlType := "JSON", nullable := true } ]
         primaryKey := ["id"]
         uniqueConstraints := [("_marketplace_sources_uc", ["name"])] }] :=
  rfl

/-- C10: in the created marketplace_sources schema only id is declared
non-nullable; name (which carries the uniqueness constraint), index,
created, updated and object are all nullable, and the storage admits a
row whose name is absent. -/
theorem marketplace_sources_name_nullable :
    (marketplaceSourcesTable.columns.map fun c => (c.name, c.nullable)) =
      [("id", false), ("name", true), ("index", true), ("created", true),
        ("updated", true), ("object", true)] ∧
    marketplaceSourcesTable.uniqueConstraints =
      [("_marketplace_sources_uc", ["name"])] ∧
    insertRow [] nullNameRowA = Except.ok [nullNameRowA] :=
  ⟨rfl, rfl, rfl⟩

/-- C9: applying upgrade and then downgrade to a schema without a
marketplace_sources table leaves the schema unchanged: downgrade drops
exactly the one table upgrade creates. -/
theorem upgrade_downgrade_round_trip (s : Schema)
    (h : ∀ t ∈ s, t.name ≠ "marketplace_sources") :
    downgrade (upgrade s) = s := by
  unfold upgrade downgrade
  rw [List.filter_append]
  have h1 : List.filter (fun t => t.name != "marketplace_sources") s = s :=
    List.filter_eq_self.mpr fun t ht => by simpa using h t ht
  have h2 : List.filter (fun t => t.name != "marketplace_sources")
      [marketplaceSourcesTable] = [] := rfl
  rw [h1, h2, List.append_nil]

/-- Witness for the round trip at a schema holding one other table. -/
theorem upgrade_downgrade_round_trip_witness :
    downgrade (upgrade [projectsTableExample]) = [projectsTableExample] :=
  upgrade_downgrade_round_trip [projectsTableExample] (by decide)

/-- C6 fails as stated: name is nullable and SQL UNIQUE ignores NULL
markers, so two distinct rows whose names are both NULL are inserted
without error, and this pair of distinct rows has equal name values. -/
theorem duplicate_null_names_insert_succeeds :
    (insertRow [] nullNameRowA).bind
        (fun rows => insertRow rows nullNameRowB) =
      Except.ok [nullNameRowA, nullNameRowB] ∧
    nullNameRowA ≠ nullNameRowB ∧
    nullNameRowA.name = nullNameRowB.name := by
  refine ⟨rfl, ?_, rfl⟩
  decide

/-- C6 (amended): the uniqueness constraint governs non-NULL names:
inserting a row whose non-NULL name is already present fails, and any
insert that succeeds preserves pairwise distinctness of non-NULL
names. -/
theorem nonnull_name_uniqueness (rows rows2 : List SourceRow)
    (r r2 : SourceRow) (n : String)
    (hr : r.name = some n)
    (hdup : rows.any (fun r0 => r0.name == some n) = true)
    (hinv : nonNullNamesDistinct rows)
    (hok : insertRow rows r2 = Except.ok rows2) :
    (∃ e, insertRow rows r = Except.error e) ∧
      nonNullNamesDistinct rows2 := by
  constructor
  · unfold insertRow
    by_cases hpk : rows.any (fun r0 => r0.id == r.id) = true
    · exact ⟨InsertError.primaryKeyViolation, by rw [if_pos hpk]⟩
    · have hcond : (match r.name with
          | some n0 => rows.any fun r0 => r0.name == some n0
          | none => false) = true := by
        rw [hr]
        exact hdup
      exact ⟨InsertError.uniqueViolation, by rw [if_neg hpk, if_pos hcond]⟩
  · unfold insertRow at hok
    by_cases hpk : rows.any (fun r0 => r0.id == r2.id) = true
    · rw [if_pos hpk] at hok
      cases hok
    · rw [if_neg hpk] at hok
      by_cases hun : (match r2.name with
          | some n0 => rows.any fun r0 => r0.name == some n0
          | none => false) = true
      · rw [if_pos hun] at hok
        cases hok
      · rw [if_neg hun] at hok
        injection hok with hrows2
        subst hrows2
        unfold nonNullNamesDistinct at hinv ⊢
        rw [List.pairwise_append]
        refine ⟨hinv, by simp, ?_⟩
        intro a ha b hb
        rw [List.mem_singleton] at hb
        subst hb
        cases hna : a.name with
        | none => exact Or.inl rfl
        | some m =>
            refine Or.inr fun hcontra => hun ?_
            rw [← hcontra]
            exact List.any_eq_true.mpr ⟨a, ha, by simp [hna]⟩

/-- Witness for the amended uniqueness theorem: with a row named a
present, inserting a second row named a fails, and inserting a row named
b keeps the non-NULL names pairwise distinct. -/
theorem nonnull_name_uniqueness_witness :
    (∃ e, insertRow [namedRowA] namedRowA2 = Except.error e) ∧
      nonNullNamesDistinct [namedRowA, namedRowB] :=
  nonnull_name_uniqueness [namedRowA] [namedRowA, namedRowB] namedRowA2
    namedRowB "a" rfl (by decide)
    (by simp [nonNullNamesDistinct]) rfl

theorem entryMetric_resolveMetric (store : TSDBStore) (endpointId : String)
    (tStart tEnd : Nat) (kind : MetricDataKind)
    (m : ModelEndpointMonitoringMetric) :
    entryMetric (resolveMetric store endpointId tStart tEnd kind m) = m := by
  unfold resolveMetric
  split
  · rfl
  · cases kind <;> rfl

theorem entryMatchesKind_resolveMetric (store : TSDBStore)
    (endpointId : String) (tStart tEnd : Nat) (kind : MetricDataKind)
    (m : ModelEndpointMonitoringMetric) :
    entryMatchesKind kind (resolveMetric store endpointId tStart tEnd kind m) =
      true := by
  unfold resolveMetric
  split
  · rfl
  · cases kind <;> rfl

theorem resolveMetric_noData (store : TSDBStore) (endpointId : String)
    (tStart tEnd : Nat) (kind : MetricDataKind)
    (m : ModelEndpointMonitoringMetric)
    (h : matchingRecords store endpointId tStart tEnd m.name = []) :
    resolveMetric store endpointId tStart tEnd kind m =
      MetricValueEntry.noData m := by
  unfold resolveMetric
  rw [h]

/-- C2: the output of read_metrics_data has exactly one entry per
requested descriptor, in the order of the input metrics list, each entry
being the value series (in the shape the type argument selects) or the
no-data marker of its descriptor. -/
theorem read_metrics_data_order_preserved (store : TSDBStore)
    (endpointId : String) (tStart tEnd : Nat)
    (metrics : List ModelEndpointMonitoringMetric) (kind : MetricDataKind) :
    (readMetricsData store endpointId tStart tEnd metrics kind).length =
      metrics.length ∧
    (readMetricsData store endpointId tStart tEnd metrics kind).map
      entryMetric = metrics ∧
    (readMetricsData store endpointId tStart tEnd metrics kind).all
      (entryMatchesKind kind) = true := by
  refine ⟨List.length_map _ _, ?_, ?_⟩
  · unfold readMetricsData
    induction metrics with
    | nil => rfl
    | cons m ms ih =>
        simp only [List.map_cons, List.cons.injEq]
        exact ⟨entryMetric_resolveMetric store endpointId tStart tEnd kind m,
          ih⟩
  · unfold readMetricsData
    rw [List.all_eq_true]
    intro e he
    obtain ⟨m, _, hme⟩ := List.mem_map.mp he
    rw [← hme]
    exact entryMatchesKind_resolveMetric store endpointId tStart tEnd kind m

/-- C1 as stated fails for read_prediction_metric_for_endpoint_if_exists:
its declaration in base.py returns `typing.Optional` and its contract is
to return None when the invocations metric was never recorded; at the
concrete empty store the call returns the bare none — absence conflated
with null — not a tagged no-data value. -/
theorem read_prediction_metric_if_exists_returns_bare_none :
    readPredictionMetricForEndpointIfExists [] "my-endpoint" = none := rfl

/-- C1 (amended): when the endpoint has no matching record in range,
read_metrics_data resolves every requested descriptor to the tagged
no-data marker and read_predictions returns the tagged no-data object;
read_prediction_metric_for_endpoint_if_exists, however, signals a
never-recorded invocations metric with the None of its Optional return
type, not with a tagged marker. -/
theorem no_data_markers_on_empty_range (store : TSDBStore)
    (endpointId : String) (tStart tEnd : Nat)
    (metrics : List ModelEndpointMonitoringMetric) (kind : MetricDataKind)
    (aggregationWindow : Option Nat)
    (hm : ∀ m ∈ metrics,
      matchingRecords store endpointId tStart tEnd m.name = [])
    (hp : matchingRecords store endpointId tStart tEnd
      invocationsMetricName = [])
    (hx : store.any (fun r => r.endpointId == endpointId &&
      r.metricName == invocationsMetricName) = false) :
    readMetricsData store endpointId tStart tEnd metrics kind =
      metrics.map MetricValueEntry.noData ∧
    readPredictions store endpointId tStart tEnd aggregationWindow =
      PredictionsReadResult.noData ∧
    readPredictionMetricForEndpointIfExists store endpointId = none := by
  refine ⟨?_, ?_, ?_⟩
  · unfold readMetricsData
    revert hm
    induction metrics with
    | nil => intro _; rfl
    | cons m ms ih =>
        intro hm
        simp only [List.map_cons, List.cons.injEq]
        refine ⟨resolveMetric_noData store endpointId tStart tEnd kind m
          (hm m (List.mem_cons_self m ms)), ?_⟩
        exact ih fun m0 h0 => hm m0 (List.mem_cons_of_mem m h0)
  · simp [readPredictions, hp]
  · simp [readPredictionMetricForEndpointIfExists, hx]

/-- Witness: a store whose only record belongs to another endpoint has no
matching records for the queried endpoint in the range 0..10. -/
theorem no_data_markers_on_empty_range_witness :
    readMetricsData exampleStore "my-endpoint" 0 10 [exampleMetric]
        MetricDataKind.metrics =
      [exampleMetric].map MetricValueEntry.noData ∧
    readPredictions exampleStore "my-endpoint" 0 10 none =
      PredictionsReadResult.noData ∧
    readPredictionMetricForEndpointIfExists exampleStore "my-endpoint" =
      none :=
  no_data_markers_on_empty_range exampleStore "my-endpoint" 0 10
    [exampleMetric] MetricDataKind.metrics none (by decide) (by decide)
    (by decide)

/-- C3: get_records fails with the not-found error exactly when no table
of the provided name exists; with an existing table it never raises
not-found. -/
theorem get_records_unknown_table_not_found_iff (tables : List TSDBTable)
    (table : String) (tStart tEnd : Nat) (columns : Option (List String))
    (filterQuery : Nat × List String → Bool) :
    getRecords tables table tStart tEnd columns filterQuery =
        Except.error MLRunQueryError.notFoundError ↔
      ∀ t ∈ tables, t.name ≠ table := by
  unfold getRecords
  cases hf : tables.find? (fun t => t.name == table) with
  | none =>
      constructor
      · intro _ t ht
        have := List.find?_eq_none.mp hf t ht
        simpa using this
      · intro _
        rfl
  | some t0 =>
      have ht0 := List.find?_some hf
      have hmem : t0 ∈ tables := List.mem_of_find?_eq_some hf
      constructor
      · intro h
        cases columns <;> simp at h
      · intro h
        exact absurd (by simpa using ht0) (h t0 hmem)

/-- C5: a write_application_event call without an explicit kind argument
persists the event with the RESULT writer-event kind, whose value is the
string result. -/
theorem write_application_event_default_kind_result
    (store : ApplicationEventStore) (event : List (String × String)) :
    (writeApplicationEventDefaultKind store event).events =
      store.events ++ [(event, WriterEventKind.result)] ∧
    WriterEventKind.value WriterEventKind.result = "result" :=
  ⟨rfl, rfl⟩

/-- C8: validation of FeatureFlags succeeds exactly when
project_membership is enabled or disabled and authentication is none,
basic, bearer or iguazio; every other value is rejected. -/
theorem feature_flags_validation_closed_enums (pm auth : String) :
    (validateFeatureFlags pm auth).isSome = true ↔
      ((pm = "enabled" ∨ pm = "disabled") ∧
        (auth = "none" ∨ auth = "basic" ∨ auth = "bearer" ∨
          auth = "iguazio")) := by
  have hpm : (parseProjectMembership pm).isSome = true ↔
      (pm = "enabled" ∨ pm = "disabled") := by
    unfold parseProjectMembership
    split_ifs with h1 h2 <;> simp_all
  have hau : (parseAuthentication auth).isSome = true ↔
      (auth = "none" ∨ auth = "basic" ∨ auth = "bearer" ∨
        auth = "iguazio") := by
    unfold parseAuthentication
    split_ifs with h1 h2 h3 h4 <;> simp_all
  rw [← hpm, ← hau]
  unfold validateFeatureFlags
  cases parseProjectMembership pm <;> cases parseAuthentication auth <;> simp

theorem unitOfChar_char (u : TimeUnit) :
    unitOfChar (TimeUnit.char u) = some u := by
  cases u <;> rfl

theorem unitOfChar_some {c : Char} {u : TimeUnit}
    (h : unitOfChar c = some u) : c = TimeUnit.char u := by
  unfold unitOfChar at h
  split_ifs at h with h1 h2 h3 h4
  · injection h with h0
    subst h0
    exact h1
  · injection h with h0
    subst h0
    exact h2
  · injection h with h0
    subst h0
    exact h3
  · injection h with h0
    subst h0
    exact h4

theorem unit_char_not_digit (u : TimeUnit) :
    Char.isDigit (TimeUnit.char u) = false := by
  cases u <;> decide

theorem parseNowMinus_isSome_iff (rest : List Char) :
    (parseNowMinus rest).isSome = true ↔
      ∃ ds u, rest = ds ++ [TimeUnit.char u] ∧ ds ≠ [] ∧
        ds.all Char.isDigit = true := by
  constructor
  · intro h
    unfold parseNowMinus at h
    split at h
    · rename_i c heq
      split at h
      · rename_i u hu
        split at h
        · simp at h
        · rename_i hds
          refine ⟨rest.takeWhile Char.isDigit, u, ?_, hds, ?_⟩
          · calc rest
                = rest.takeWhile Char.isDigit ++
                    rest.dropWhile Char.isDigit :=
                  (List.takeWhile_append_dropWhile Char.isDigit rest).symm
              _ = rest.takeWhile Char.isDigit ++ [c] := by rw [heq]
              _ = rest.takeWhile Char.isDigit ++ [TimeUnit.char u] := by
                  rw [unitOfChar_some hu]
          · rw [List.all_eq_true]
            intro x hx
            exact List.mem_takeWhile_imp hx
      · simp at h
    · simp at h
  · rintro ⟨ds, u, hrest, hne, hd⟩
    subst hrest
    have hall : ∀ a ∈ ds, Char.isDigit a := fun a ha =>
      List.all_eq_true.mp hd a ha
    have hdw : (ds ++ [TimeUnit.char u]).dropWhile Char.isDigit =
        [TimeUnit.char u] := by
      rw [List.dropWhile_append_of_pos hall]
      exact List.dropWhile_cons_of_neg (by simp [unit_char_not_digit])
    have htw : (ds ++ [TimeUnit.char u]).takeWhile Char.isDigit = ds := by
      rw [List.takeWhile_append_of_pos hall,
        List.takeWhile_cons_of_neg (by simp [unit_char_not_digit]),
        List.append_nil]
    unfold parseNowMinus
    simp only [hdw, htw, unitOfChar_char]
    rw [if_neg hne]
    rfl

theorem parseTimeExprChars_isSome_iff (cs : List Char) :
    (parseTimeExprChars cs).isSome = true ↔ IsTimeExpr cs := by
  constructor
  · intro h
    unfold parseTimeExprChars at h
    by_cases h0 : cs = ['0']
    · subst h0
      exact IsTimeExpr.earliest
    · rw [if_neg h0] at h
      by_cases h1 : cs = ['n', 'o', 'w']
      · subst h1
        exact IsTimeExpr.now
      · rw [if_neg h1] at h
        by_cases h2 : cs.take 4 = ['n', 'o', 'w', '-']
        · rw [if_pos h2] at h
          obtain ⟨ds, u, heq, hne, hd⟩ := (parseNowMinus_isSome_iff _).mp h
          have hcs : cs = ['n', 'o', 'w', '-'] ++ (ds ++ [TimeUnit.char u]) := by
            calc cs = cs.take 4 ++ cs.drop 4 := (List.take_append_drop 4 cs).symm
              _ = ['n', 'o', 'w', '-'] ++ (ds ++ [TimeUnit.char u]) := by
                  rw [h2, heq]
          rw [hcs]
          exact IsTimeExpr.nowMinus ds u hne hd
        · rw [if_neg h2] at h
          by_cases h3 : cs = []
          · rw [if_pos h3] at h
            simp at h
          · rw [if_neg h3] at h
            by_cases h4 : cs.all Char.isDigit = true
            · exact IsTimeExpr.absolute cs h3 h4
            · rw [if_neg h4] at h
              simp at h
  · intro h
    cases h with
    | earliest => rfl
    | now => rfl
    | nowMinus ds u hne hd =>
        have h0 : (['n', 'o', 'w', '-'] ++ (ds ++ [TimeUnit.char u])) ≠
            ['0'] := by
          intro hcontra
          simp only [List.cons_append, List.nil_append] at hcontra
          injection hcontra with hc _
          exact absurd hc (by decide)
        have h1 : (['n', 'o', 'w', '-'] ++ (ds ++ [TimeUnit.char u])) ≠
            ['n', 'o', 'w'] := by
          intro hcontra
          simp only [List.cons_append, List.nil_append] at hcontra
          injection hcontra with _ hcontra
          injection hcontra with _ hcontra
          injection hcontra with _ hcontra
          exact List.noConfusion hcontra
        have h2 : (['n', 'o', 'w', '-'] ++ (ds ++ [TimeUnit.char u])).take 4 =
            ['n', 'o', 'w', '-'] := rfl
        have h3 : (['n', 'o', 'w', '-'] ++ (ds ++ [TimeUnit.char u])).drop 4 =
            ds ++ [TimeUnit.char u] := rfl
        unfold parseTimeExprChars
        rw [if_neg h0, if_neg h1, if_pos h2, h3]
        exact (parseNowMinus_isSome_iff _).mpr ⟨ds, u, rfl, hne, hd⟩
    | absolute cs hne hd =>
        unfold parseTimeExprChars
        by_cases h0 : cs = ['0']
        · rw [if_pos h0]
          rfl
        · rw [if_neg h0]
          by_cases h1 : cs = ['n', 'o', 'w']
          · exfalso
            have hn := List.all_eq_true.mp hd 'n' (by rw [h1]; simp)
            exact absurd hn (by decide)
          · rw [if_neg h1]
            by_cases h2 : cs.take 4 = ['n', 'o', 'w', '-']
            · exfalso
              have hmem : 'n' ∈ cs :=
                List.mem_of_mem_take (by rw [h2]; simp)
              have hn := List.all_eq_true.mp hd 'n' hmem
              exact absurd hn (by decide)
            · rw [if_neg h2, if_neg hne, if_pos hd]
              rfl

/-- C4: the time bounds of get_model_endpoint_real_time_metrics accept
exactly the sentinel 0, the relative expressions now and now-N unit, and
an absolute timestamp; the unit letter ranges over exactly m (minutes),
h (hours), d (days) and s (seconds). -/
theorem time_expr_accepted_iff_grammar (str : String) :
    ((parseTimeExpr str).isSome = true ↔ IsTimeExpr str.data) ∧
    ∀ c : Char, (unitOfChar c).isSome = true ↔
      (c = 'm' ∨ c = 'h' ∨ c = 'd' ∨ c = 's') := by
  constructor
  · exact parseTimeExprChars_isSome_iff str.data
  · intro c
    unfold unitOfChar
    split_ifs with h1 h2 h3 h4 <;> simp_all

end MLRun
